import Mathlib

/-!
Verification development for the PhonePe statement-import scripts
(src/phonepe_expense_update.py, src/phonepe_pdf2txt_parser_v2.py).

The Python functions relevant to the checked properties are shallowly
embedded as executable Lean definitions.  Strings are modelled as Lean
strings over their character lists; the regular expressions of the source
are modelled by direct character-level scanners that mirror the leftmost
match, alternation-order and greediness behaviour of Python re on the
character classes involved (ASCII inputs); Python Decimal values quantized
to four decimal places are modelled as integers scaled by 10^4; the
PostgreSQL store is modelled as lists of rows, and every executed SQL
statement is recorded in a trace so that read/insert/update/delete
behaviour can be stated.
-/

namespace Phonepe

/-! ## Basic character and list utilities -/

/-- Python regex class \s restricted to the ASCII whitespace characters
(space, tab, newline, carriage return, vertical tab, form feed). -/
def isWs (c : Char) : Bool :=
  c = ' ' ∨ c = '\t' ∨ c = '\n' ∨ c = '\r' ∨ c = '\x0b' ∨ c = '\x0c'

/-- Python regex word character \w (ASCII fragment): letters, digits, underscore. -/
def isWordChar (c : Char) : Bool :=
  c.isAlphanum ∨ c = '_'

/-- Strip ASCII whitespace from both ends of a character list (Python str.strip()). -/
def stripWsL (l : List Char) : List Char :=
  ((l.dropWhile isWs).reverse.dropWhile isWs).reverse

/-- Strip every character of the given set from both ends
(Python str.strip(chars)). -/
def stripSet (set : List Char) (l : List Char) : List Char :=
  ((l.dropWhile (set.contains ·)).reverse.dropWhile (set.contains ·)).reverse

/-- Strip every character of the given set from the right end only
(Python str.rstrip(chars)). -/
def rstripSet (set : List Char) (l : List Char) : List Char :=
  (l.reverse.dropWhile (set.contains ·)).reverse

/-- Case-insensitive prefix test: the pattern is given in lowercase; on success
the rest of the input after the matched prefix is returned. -/
def startsWithCI : List Char → List Char → Option (List Char)
  | [], s => some s
  | _ :: _, [] => none
  | p :: ps, c :: cs => if c.toLower = p then startsWithCI ps cs else none

/-- Plain (case-sensitive) prefix test on character lists. -/
def listStartsWith : List Char → List Char → Bool
  | [], _ => true
  | _ :: _, [] => false
  | p :: ps, c :: cs => if p = c then listStartsWith ps cs else false

/-- Position of the first occurrence of a (nonempty) pattern as a substring
(Python str.find, restricted to found/not-found). -/
def substrFind (pat : List Char) : List Char → Option Nat
  | [] => if pat.isEmpty then some 0 else none
  | c :: cs =>
    if listStartsWith pat (c :: cs) then some 0
    else (substrFind pat cs).map (· + 1)

/-- Boolean substring containment. -/
def containsSub (hay needle : List Char) : Bool :=
  (substrFind needle hay).isSome

/-- Descending list of naturals hi, hi-1, ..., lo (empty when hi < lo);
used to model greedy bounded regex quantifiers that try the longest
repetition first. -/
def descRange (hi lo : Nat) : List Nat :=
  (List.range (hi + 1 - lo)).map (fun i => hi - i)

/-- Digits of a decimal character run as a natural number. -/
def digitsToNat (l : List Char) : Nat :=
  l.foldl (fun n c => n * 10 + (c.toNat - 48)) 0

/-- Decimal digit characters of a natural number. -/
def natDigits (n : Nat) : List Char := Nat.toDigits 10 n

/-- Left zero-padding to the given width. -/
def padLeft (w : Nat) (l : List Char) : List Char :=
  List.replicate (w - l.length) '0' ++ l

/-- Two-digit zero-padded rendering (strftime %m, %d, %H, %M). -/
def pad2 (n : Nat) : List Char := padLeft 2 (natDigits n)

/-- Four-digit zero-padded rendering (strftime %Y). -/
def pad4 (n : Nat) : List Char := padLeft 4 (natDigits n)

/-- Python truthiness of a string read from a dict with .get:
None and the empty string are falsy. -/
def pyTruthy (o : Option String) : Bool :=
  match o with
  | some s => s ≠ ""
  | none => false

/-- Python `a or b` on strings: the empty string is falsy. -/
def pyOrS (a b : String) : String := if a = "" then b else a

/-- Word boundary \b holds before a position when there is no previous
character or the previous character is not a word character (for patterns
that start with a word character). -/
def boundaryOkBefore (prev : Option Char) : Bool :=
  match prev with
  | none => true
  | some p => !(isWordChar p)

/-- Word boundary \b holds after a match ending in a word character when the
input is exhausted or the next character is not a word character. -/
def boundaryOkAfter : List Char → Bool
  | [] => true
  | c :: _ => !(isWordChar c)

/-- Python regex $ without MULTILINE: end of input, or immediately before a
single trailing newline. -/
def dollarEnd : List Char → Bool
  | [] => true
  | ['\n'] => true
  | _ => false

/-! ## Regex scanners

Each scanner mirrors one compiled pattern of the source.  Scanning proceeds
position by position (leftmost match), alternatives are tried in the order
they appear in the pattern, and bounded quantifiers are tried greedily
(longest first) with backtracking where the pattern requires it. -/

/-- Alternative 1 of DATE_FIND_RE: [A-Za-z]\x7b3,9\x7d\s*\d\x7b1,2\x7d,\s*\d\x7b4\x7d.
Returns the match length at this position. -/
def dfAlt1Len (cs : List Char) : Option Nat :=
  let letters := min (cs.takeWhile Char.isAlpha).length 9
  (descRange letters 3).findSome? fun k =>
    let r1 := cs.drop k
    let w1 := (r1.takeWhile isWs).length
    let r2 := r1.drop w1
    let dRun := min (r2.takeWhile Char.isDigit).length 2
    (descRange dRun 1).findSome? fun m =>
      match r2.drop m with
      | ',' :: r4 =>
        let w2 := (r4.takeWhile isWs).length
        let r5 := r4.drop w2
        if (r5.take 4).length = 4 ∧ (r5.take 4).all Char.isDigit then
          some (k + w1 + m + 1 + w2 + 4)
        else none
      | _ => none

/-- Alternative 2 of DATE_FIND_RE: one or two digits, a dash or slash
separator, one or two digits, a separator again, then two to four digits. -/
def dfAlt2Len (cs : List Char) : Option Nat :=
  let d1 := min (cs.takeWhile Char.isDigit).length 2
  (descRange d1 1).findSome? fun a =>
    match cs.drop a with
    | s1 :: r1 =>
      if s1 = '-' ∨ s1 = '/' then
        let d2 := min (r1.takeWhile Char.isDigit).length 2
        (descRange d2 1).findSome? fun b =>
          match r1.drop b with
          | s2 :: r2 =>
            if s2 = '-' ∨ s2 = '/' then
              let d3 := min (r2.takeWhile Char.isDigit).length 4
              if d3 ≥ 2 then some (a + 1 + b + 1 + d3) else none
            else none
          | [] => none
      else none
    | [] => none

/-- Alternative 3 of DATE_FIND_RE: \d\x7b4\x7d-\d\x7b1,2\x7d-\d\x7b1,2\x7d. -/
def dfAlt3Len (cs : List Char) : Option Nat :=
  if (cs.take 4).length = 4 ∧ (cs.take 4).all Char.isDigit then
    match cs.drop 4 with
    | '-' :: r1 =>
      let d2 := min (r1.takeWhile Char.isDigit).length 2
      (descRange d2 1).findSome? fun b =>
        match r1.drop b with
        | '-' :: r2 =>
          let d3 := min (r2.takeWhile Char.isDigit).length 2
          if d3 ≥ 1 then some (4 + 1 + b + 1 + d3) else none
        | _ => none
    | _ => none
  else none

/-- Match of DATE_FIND_RE anchored at the current position: alternatives in
pattern order. -/
def dateFindAt (cs : List Char) : Option Nat :=
  dfAlt1Len cs <|> dfAlt2Len cs <|> dfAlt3Len cs

/-- Leftmost DATE_FIND_RE match (the matched token) in a character list. -/
def dateFindList : List Char → Option (List Char)
  | [] => none
  | c :: cs =>
    match dateFindAt (c :: cs) with
    | some n => some ((c :: cs).take n)
    | none => dateFindList cs

/-- Match of TIME_FIND_RE, \d\x7b1,2\x7d:\d\x7b2\x7d\s*(AM|PM) case-insensitive,
anchored at the current position. -/
def timeFindAt (cs : List Char) : Option Nat :=
  let d1 := min (cs.takeWhile Char.isDigit).length 2
  (descRange d1 1).findSome? fun a =>
    match cs.drop a with
    | ':' :: r1 =>
      if (r1.take 2).length = 2 ∧ (r1.take 2).all Char.isDigit then
        let r2 := r1.drop 2
        let w := (r2.takeWhile isWs).length
        match r2.drop w with
        | x :: y :: _ =>
          if (x.toLower = 'a' ∨ x.toLower = 'p') ∧ y.toLower = 'm' then
            some (a + 1 + 2 + w + 2)
          else none
        | _ => none
      else none
    | _ => none

/-- Leftmost TIME_FIND_RE match in a character list. -/
def timeFindList : List Char → Option (List Char)
  | [] => none
  | c :: cs =>
    match timeFindAt (c :: cs) with
    | some n => some ((c :: cs).take n)
    | none => timeFindList cs

/-- Numeric group of INR_AMT_RE, [0-9,]+(\.[0-9]+)? with a greedy optional
fraction, anchored at the current position. -/
def inrNumGroup (cs : List Char) : Option (List Char) :=
  let run1 := cs.takeWhile (fun c => c.isDigit ∨ c = ',')
  if run1.length = 0 then none
  else
    match cs.drop run1.length with
    | '.' :: r2 =>
      let frac := r2.takeWhile Char.isDigit
      if frac.length = 0 then some run1
      else some (run1 ++ '.' :: frac)
    | _ => some run1

/-- Match of INR_AMT_RE, (INR|rupee sign|Rs\.?)\s*([0-9,]+(\.[0-9]+)?)
case-insensitive, anchored at the current position; returns the numeric
group.  The optional dot after Rs is greedy and falls back to the dotless
form when the number fails to follow. -/
def inrAt (cs : List Char) : Option (List Char) :=
  let tryFrom := fun (rest : List Char) => inrNumGroup (rest.dropWhile isWs)
  match startsWithCI ['i', 'n', 'r'] cs with
  | some r => tryFrom r
  | none =>
    match cs with
    | '₹' :: r => tryFrom r
    | _ =>
      match startsWithCI ['r', 's'] cs with
      | some r =>
        (match r with
         | '.' :: r2 => tryFrom r2 <|> tryFrom r
         | _ => tryFrom r)
      | none => none

/-- Leftmost INR_AMT_RE match (numeric group) in a character list. -/
def inrSearchList : List Char → Option (List Char)
  | [] => none
  | c :: cs =>
    match inrAt (c :: cs) with
    | some g => some g
    | none => inrSearchList cs

/-- Maximal run of (,ddd) comma groups of AMOUNT_RE alternative 1; returns
the number of characters consumed. -/
def commaGroups : List Char → Nat
  | ',' :: d1 :: d2 :: d3 :: rest =>
    if d1.isDigit ∧ d2.isDigit ∧ d3.isDigit then 4 + commaGroups rest else 0
  | _ => 0

/-- Alternative 1 of AMOUNT_RE: [0-9]\x7b1,3\x7d(,[0-9]\x7b3\x7d)*\.[0-9]+
(the fraction is mandatory in this alternative). -/
def amtAlt1Len (cs : List Char) : Option Nat :=
  let drun := min (cs.takeWhile Char.isDigit).length 3
  (descRange drun 1).findSome? fun a =>
    let r1 := cs.drop a
    let g := commaGroups r1
    match r1.drop g with
    | '.' :: r3 =>
      let f := (r3.takeWhile Char.isDigit).length
      if f ≥ 1 then some (a + g + 1 + f) else none
    | _ => none

/-- Alternative 2 of AMOUNT_RE: \d+(\.[0-9]+)?. -/
def amtAlt2Len (cs : List Char) : Option Nat :=
  let d := (cs.takeWhile Char.isDigit).length
  if d = 0 then none
  else
    match cs.drop d with
    | '.' :: r2 =>
      let f := (r2.takeWhile Char.isDigit).length
      if f ≥ 1 then some (d + 1 + f) else some d
    | _ => some d

/-- Non-overlapping left-to-right AMOUNT_RE matches (re.findall), with the
remaining input length as structural fuel. -/
def amountFindallFuel : Nat → List Char → List (List Char)
  | 0, _ => []
  | _, [] => []
  | Nat.succ fuel, c :: cs =>
    match amtAlt1Len (c :: cs) <|> amtAlt2Len (c :: cs) with
    | some n =>
      (c :: cs).take n :: amountFindallFuel fuel ((c :: cs).drop (max n 1))
    | none => amountFindallFuel fuel cs

/-- All AMOUNT_RE matches of a character list in order. -/
def amountFindall (cs : List Char) : List (List Char) :=
  amountFindallFuel cs.length cs

/-- Word search with boundaries: \b w \b case-insensitive, for a lowercase
word made of word characters (DEBIT_WORD_RE, CREDIT_WORD_RE). -/
def searchWordCIAux (w : List Char) : Option Char → List Char → Bool
  | _, [] => false
  | prev, c :: cs =>
    (boundaryOkBefore prev &&
      (match startsWithCI w (c :: cs) with
       | some rest => boundaryOkAfter rest
       | none => false))
    || searchWordCIAux w (some c) cs

/-- Boolean search of \b w \b in a character list. -/
def searchWordCI (w : List Char) (s : List Char) : Bool :=
  searchWordCIAux w none s

/-- Date part of DATE_RANGE_RE: three to nine letters, \s*, one or two
digits, a comma, \s*, exactly four digits, then a word boundary. -/
def dateRangePartLen (cs : List Char) : Option Nat :=
  let letters := min (cs.takeWhile Char.isAlpha).length 9
  (descRange letters 3).findSome? fun k =>
    let r1 := cs.drop k
    let w1 := (r1.takeWhile isWs).length
    let r2 := r1.drop w1
    let dRun := min (r2.takeWhile Char.isDigit).length 2
    (descRange dRun 1).findSome? fun m =>
      match r2.drop m with
      | ',' :: r4 =>
        let w2 := (r4.takeWhile isWs).length
        let r5 := r4.drop w2
        if (r5.take 4).length = 4 ∧ (r5.take 4).all Char.isDigit
            ∧ boundaryOkAfter (r5.drop 4) then
          some (k + w1 + m + 1 + w2 + 4)
        else none
      | _ => none

/-- Separator class of DATE_RANGE_RE, [-(en dash)to] under IGNORECASE. -/
def isRangeSep (c : Char) : Bool :=
  c = '-' ∨ c = '–' ∨ c = 't' ∨ c = 'o' ∨ c = 'T' ∨ c = 'O'

/-- Match of DATE_RANGE_RE anchored at the current position (with the
preceding character for the initial word boundary): date part, \s*, one to
four separator-class characters (greedy with backtracking), \s*, word
boundary, second date part. -/
def dateRangeAtPos (prev : Option Char) (cs : List Char) : Bool :=
  boundaryOkBefore prev &&
  (match dateRangePartLen cs with
   | none => false
   | some n1 =>
     let r1 := cs.drop n1
     let w1 := (r1.takeWhile isWs).length
     let r2 := r1.drop w1
     let sepRun := min (r2.takeWhile isRangeSep).length 4
     (descRange sepRun 1).any fun k =>
       let lastSep := (r2.drop (k - 1)).head?
       let r3 := r2.drop k
       let w2 := (r3.takeWhile isWs).length
       let prevOk : Bool :=
         if w2 > 0 then true
         else match lastSep with
           | some c => !(isWordChar c)
           | none => false
       prevOk && (dateRangePartLen (r3.drop w2)).isSome)

/-- Boolean search of DATE_RANGE_RE in a character list. -/
def dateRangeSearchAux : Option Char → List Char → Bool
  | _, [] => false
  | prev, c :: cs => dateRangeAtPos prev (c :: cs) || dateRangeSearchAux (some c) cs

/-- DATE_RANGE_RE search on a string (statement date-range headers like
"Oct 28, 2025 - Nov 27, 2025"). -/
def dateRangeSearch (s : String) : Bool :=
  dateRangeSearchAux none s.data

/-- Alternatives 1 and 2 of PAGE_HEADER_MARKERS_RE anchored at a position:
"transaction" \s+ "statement" \s+ "for", or "transaction" \s+ "details",
case-insensitive. -/
def phTransactionAlts (cs : List Char) : Bool :=
  match startsWithCI "transaction".data cs with
  | none => false
  | some r =>
    let w := (r.takeWhile isWs).length
    if w = 0 then false
    else
      let r2 := r.drop w
      (match startsWithCI "statement".data r2 with
       | some r3 =>
         let w2 := (r3.takeWhile isWs).length
         decide (w2 ≠ 0) && (startsWithCI "for".data (r3.drop w2)).isSome
       | none => false)
      || (startsWithCI "details".data r2).isSome

/-- Alternative 3 of PAGE_HEADER_MARKERS_RE anchored at a position:
"date" \s* end-of-input, case-insensitive. -/
def phDateEnd (cs : List Char) : Bool :=
  match startsWithCI "date".data cs with
  | some r => dollarEnd (r.dropWhile isWs)
  | none => false

/-- Boolean search of PAGE_HEADER_MARKERS_RE in a character list. -/
def pageHeaderSearchAux : List Char → Bool
  | [] => false
  | c :: cs =>
    phTransactionAlts (c :: cs) || phDateEnd (c :: cs) || pageHeaderSearchAux cs

/-- PAGE_HEADER_MARKERS_RE search on a string. -/
def pageHeaderSearch (s : String) : Bool :=
  pageHeaderSearchAux s.data

/-- List HEADER_KEYWORDS of the source, as character lists. -/
def headerKeywordsData : List (List Char) :=
  ["date transaction details".data, "transaction details".data,
   "date transaction details type amount".data]

/-- Minimum of a list of naturals, when nonempty. -/
def minNat? (l : List Nat) : Option Nat :=
  l.foldl (fun acc p => match acc with | none => some p | some q => some (min q p)) none

/-- Truncation of a block at the first occurrence of a known header/footer
keyword in its lowercased text; the truncated prefix is stripped, an
untruncated block is returned unchanged (lines 325-333 of
src/phonepe_expense_update.py). -/
def truncateAtHeader (bt : List Char) : List Char :=
  let lowb := bt.map Char.toLower
  match minNat? (headerKeywordsData.filterMap (fun k => substrFind k lowb)) with
  | none => bt
  | some p => stripWsL (bt.take p)

/-- Field-marker lookahead of the payee regex: one of "Transaction ID",
"UTR", "INR", "Debit", "Credit" starts here (case-insensitive). -/
def payeeMarkerAt (cs : List Char) : Bool :=
  (startsWithCI "transaction id".data cs).isSome
  || (startsWithCI "utr".data cs).isSome
  || (startsWithCI "inr".data cs).isSome
  || (startsWithCI "debit".data cs).isSome
  || (startsWithCI "credit".data cs).isSome

/-- Lookahead of the payee regex: a field marker or the end anchor. -/
def markerOrEnd (cs : List Char) : Bool :=
  payeeMarkerAt cs || dollarEnd cs

/-- Lazy group (.+?) up to the lookahead: the shortest nonempty
non-newline-crossing prefix after which the lookahead holds. -/
def payeeCaptureFrom (r : List Char) : Option (List Char) :=
  let limit := (r.takeWhile (· ≠ '\n')).length
  ((List.range limit).map (· + 1)).findSome? fun k =>
    if markerOrEnd (r.drop k) then some (r.take k) else none

/-- Group 2 of the payee regex after a matched introducer: \s* is tried
greedily and gives whitespace back to the lazy group when needed. -/
def payeeCapture (rest : List Char) : Option (List Char) :=
  let maxW := (rest.takeWhile isWs).length
  (descRange maxW 0).findSome? fun w => payeeCaptureFrom (rest.drop w)

/-- Payee introducers of the source regex, in alternation order. -/
def payeeIntroducers : List (List Char) :=
  ["paid to".data, "received from".data, "bill paid -".data, "bill paid".data]

/-- Leftmost match of the payee regex
(Paid to|Received from|Bill paid -|Bill paid)\s*(.+?)(?=markers), returning
group 2. -/
def mPaidSearch : List Char → Option (List Char)
  | [] => none
  | c :: cs =>
    (payeeIntroducers.findSome? fun intro =>
      match startsWithCI intro (c :: cs) with
      | some rest => payeeCapture rest
      | none => none)
    <|> mPaidSearch cs

/-- Marker of the payee fallback re.split pattern:
Transaction\s*ID|UTR|INR|Debited\s*from|Credited\s*to|Debit|Credit. -/
def splitMarkerAt (cs : List Char) : Bool :=
  (match startsWithCI "transaction".data cs with
   | some r => (startsWithCI "id".data (r.dropWhile isWs)).isSome
   | none => false)
  || (startsWithCI "utr".data cs).isSome
  || (startsWithCI "inr".data cs).isSome
  || (match startsWithCI "debited".data cs with
      | some r => (startsWithCI "from".data (r.dropWhile isWs)).isSome
      | none => false)
  || (match startsWithCI "credited".data cs with
      | some r => (startsWithCI "to".data (r.dropWhile isWs)).isSome
      | none => false)
  || (startsWithCI "debit".data cs).isSome
  || (startsWithCI "credit".data cs).isSome

/-- Prefix of the block before the first split marker (parts[0] of the
re.split fallback). -/
def splitPrefixAux : List Char → List Char
  | [] => []
  | c :: rest =>
    if splitMarkerAt (c :: rest) then [] else c :: splitPrefixAux rest

/-- Payee extraction of parse_block_text (lines 337-348 of
src/phonepe_expense_update.py): the labelled regex first, else the first
segment of the marker split; each with the stripping the source applies. -/
def extractPayee (bt : List Char) : List Char :=
  match mPaidSearch bt with
  | some g => rstripSet [','] (stripWsL g)
  | none => stripSet [' ', ',', ':', '-'] (stripWsL (splitPrefixAux bt))

/-- Match of TXN_ID_RE, Transaction\s*ID then separators then an
alphanumeric token, anchored at the current position; returns the token. -/
def txnIdAt (cs : List Char) : Option (List Char) :=
  match startsWithCI "transaction".data cs with
  | none => none
  | some r =>
    match startsWithCI "id".data (r.dropWhile isWs) with
    | none => none
    | some r2 =>
      let r3 := r2.dropWhile (fun c => isWs c ∨ c = ':' ∨ c = '-')
      let tok := r3.takeWhile Char.isAlphanum
      if tok.length = 0 then none else some tok

/-- Leftmost TXN_ID_RE match in a character list. -/
def txnIdSearch : List Char → Option (List Char)
  | [] => none
  | c :: cs =>
    match txnIdAt (c :: cs) with
    | some t => some t
    | none => txnIdSearch cs

/-- Match of the generic transaction-id pattern
\b[A-Z]\x7b1,4\x7d\d\x7b5,\x7d[A-Za-z0-9]*\b anchored at the current position. -/
def genIdAt (prev : Option Char) (cs : List Char) : Option (List Char) :=
  if boundaryOkBefore prev then
    let uRun := min (cs.takeWhile Char.isUpper).length 4
    (descRange uRun 1).findSome? fun k =>
      let r := cs.drop k
      let dRun := (r.takeWhile Char.isDigit).length
      if dRun < 5 then none
      else
        let tail := ((r.drop dRun).takeWhile Char.isAlphanum).length
        if boundaryOkAfter (r.drop (dRun + tail)) then
          some (cs.take (k + dRun + tail))
        else none
  else none

/-- Leftmost generic transaction-id match in a character list. -/
def genIdSearchAux : Option Char → List Char → Option (List Char)
  | _, [] => none
  | prev, c :: cs =>
    match genIdAt prev (c :: cs) with
    | some t => some t
    | none => genIdSearchAux (some c) cs

/-- Generic transaction-id search on a character list. -/
def genIdSearch (cs : List Char) : Option (List Char) :=
  genIdSearchAux none cs

/-- Match of UTR_RE, UTR\s*No\.? then separators then an alphanumeric token,
anchored at the current position. -/
def utrAt (cs : List Char) : Option (List Char) :=
  match startsWithCI "utr".data cs with
  | none => none
  | some r =>
    match startsWithCI "no".data (r.dropWhile isWs) with
    | none => none
    | some r2 =>
      let r3 := match r2 with | '.' :: t => t | _ => r2
      let r4 := r3.dropWhile (fun c => isWs c ∨ c = ':' ∨ c = '-')
      let tok := r4.takeWhile Char.isAlphanum
      if tok.length = 0 then none else some tok

/-- Leftmost UTR_RE match in a character list. -/
def utrSearch : List Char → Option (List Char)
  | [] => none
  | c :: cs =>
    match utrAt (c :: cs) with
    | some t => some t
    | none => utrSearch cs

/-! ## strptime/strftime models

CPython strptime compiles each directive to a regex; the candidate parses
below list the alternatives of those regexes in their order, and the format
parsers try candidates with backtracking against the rest of the format.
A parse succeeds only when the whole input is consumed and the resulting
calendar date is valid (datetime construction). -/

/-- Digit value of an ASCII digit character. -/
def digitVal (c : Char) : Nat := c.toNat - 48

/-- Candidates of the strptime %d directive
(3[01]|[12]\d|0[1-9]|[1-9]|space[1-9]) in regex alternation order, each with
the remaining input. -/
def pDayCands (cs : List Char) : List (Nat × List Char) :=
  (match cs with
   | '3' :: c :: r => if c = '0' ∨ c = '1' then [(30 + digitVal c, r)] else []
   | _ => [])
  ++ (match cs with
   | a :: b :: r =>
     if (a = '1' ∨ a = '2') ∧ b.isDigit then [(digitVal a * 10 + digitVal b, r)] else []
   | _ => [])
  ++ (match cs with
   | '0' :: b :: r => if b.isDigit ∧ b ≠ '0' then [(digitVal b, r)] else []
   | _ => [])
  ++ (match cs with
   | a :: r => if a.isDigit ∧ a ≠ '0' then [(digitVal a, r)] else []
   | _ => [])
  ++ (match cs with
   | ' ' :: b :: r => if b.isDigit ∧ b ≠ '0' then [(digitVal b, r)] else []
   | _ => [])

/-- Candidates of the strptime %m directive (1[0-2]|0[1-9]|[1-9]). -/
def pMonthCands (cs : List Char) : List (Nat × List Char) :=
  (match cs with
   | '1' :: c :: r => if c = '0' ∨ c = '1' ∨ c = '2' then [(10 + digitVal c, r)] else []
   | _ => [])
  ++ (match cs with
   | '0' :: b :: r => if b.isDigit ∧ b ≠ '0' then [(digitVal b, r)] else []
   | _ => [])
  ++ (match cs with
   | a :: r => if a.isDigit ∧ a ≠ '0' then [(digitVal a, r)] else []
   | _ => [])

/-- Candidates of the strptime %H directive (2[0-3]|[0-1]\d|\d). -/
def pHourCands (cs : List Char) : List (Nat × List Char) :=
  (match cs with
   | '2' :: c :: r =>
     if c = '0' ∨ c = '1' ∨ c = '2' ∨ c = '3' then [(20 + digitVal c, r)] else []
   | _ => [])
  ++ (match cs with
   | a :: b :: r =>
     if (a = '0' ∨ a = '1') ∧ b.isDigit then [(digitVal a * 10 + digitVal b, r)] else []
   | _ => [])
  ++ (match cs with
   | a :: r => if a.isDigit then [(digitVal a, r)] else []
   | _ => [])

/-- Candidates of the strptime %M directive ([0-5]\d|\d). -/
def pMinCands (cs : List Char) : List (Nat × List Char) :=
  (match cs with
   | a :: b :: r =>
     if a.isDigit ∧ digitVal a ≤ 5 ∧ b.isDigit then [(digitVal a * 10 + digitVal b, r)] else []
   | _ => [])
  ++ (match cs with
   | a :: r => if a.isDigit then [(digitVal a, r)] else []
   | _ => [])

/-- Candidates of the strptime %I directive (1[0-2]|0[1-9]|[1-9]). -/
def pHour12Cands (cs : List Char) : List (Nat × List Char) :=
  pMonthCands cs

/-- Exactly four digits of the strptime %Y directive. -/
def pYear4 (cs : List Char) : Option (Nat × List Char) :=
  match cs with
  | a :: b :: c :: d :: r =>
    if a.isDigit ∧ b.isDigit ∧ c.isDigit ∧ d.isDigit then
      some (digitsToNat [a, b, c, d], r)
    else none
  | _ => none

/-- Abbreviated month names of directive %b (C locale), lowercased. -/
def monthAbbrevs : List (List Char × Nat) :=
  [("jan".data, 1), ("feb".data, 2), ("mar".data, 3), ("apr".data, 4),
   ("may".data, 5), ("jun".data, 6), ("jul".data, 7), ("aug".data, 8),
   ("sep".data, 9), ("oct".data, 10), ("nov".data, 11), ("dec".data, 12)]

/-- Full month names of directive %B (C locale), lowercased. -/
def monthFulls : List (List Char × Nat) :=
  [("january".data, 1), ("february".data, 2), ("march".data, 3),
   ("april".data, 4), ("may".data, 5), ("june".data, 6), ("july".data, 7),
   ("august".data, 8), ("september".data, 9), ("october".data, 10),
   ("november".data, 11), ("december".data, 12)]

/-- Gregorian leap-year test as datetime uses it. -/
def isLeap (y : Nat) : Bool :=
  y % 4 = 0 ∧ (y % 100 ≠ 0 ∨ y % 400 = 0)

/-- Number of days of a month as datetime uses it. -/
def daysInMonth (y m : Nat) : Nat :=
  if m = 2 then (if isLeap y then 29 else 28)
  else if m = 4 ∨ m = 6 ∨ m = 9 ∨ m = 11 then 30
  else 31

/-- Validity of a calendar date for datetime construction
(MINYEAR 1, MAXYEAR 9999). -/
def validDate (y m d : Nat) : Bool :=
  1 ≤ y ∧ y ≤ 9999 ∧ 1 ≤ m ∧ m ≤ 12 ∧ 1 ≤ d ∧ d ≤ daysInMonth y m

/-- Parse of strptime format "%b %d, %Y" or "%B %d, %Y" (month table given),
requiring full consumption and a valid date. -/
def parseFmtMonthName (table : List (List Char × Nat)) (cs : List Char) :
    Option (Nat × Nat × Nat) :=
  table.findSome? fun nm =>
    match startsWithCI nm.1 cs with
    | none => none
    | some r =>
      let w := (r.takeWhile isWs).length
      if w = 0 then none
      else
        (pDayCands (r.drop w)).findSome? fun dc =>
          match dc.2 with
          | ',' :: r3 =>
            let w2 := (r3.takeWhile isWs).length
            if w2 = 0 then none
            else
              match pYear4 (r3.drop w2) with
              | some (y, r4) =>
                if r4.isEmpty ∧ validDate y nm.2 dc.1 then some (y, nm.2, dc.1)
                else none
              | none => none
          | _ => none

/-- Parse of strptime format "%Y-%m-%d", full consumption, valid date. -/
def parseFmtYmd (cs : List Char) : Option (Nat × Nat × Nat) :=
  match pYear4 cs with
  | none => none
  | some (y, r) =>
    match r with
    | '-' :: r1 =>
      (pMonthCands r1).findSome? fun mc =>
        match mc.2 with
        | '-' :: r2 =>
          (pDayCands r2).findSome? fun dc =>
            if dc.2.isEmpty ∧ validDate y mc.1 dc.1 then some (y, mc.1, dc.1)
            else none
        | _ => none
    | _ => none

/-- Parse of strptime format "%d-%m-%Y" or "%d/%m/%Y" with the given
separator, full consumption, valid date. -/
def parseFmtDmy (sep : Char) (cs : List Char) : Option (Nat × Nat × Nat) :=
  (pDayCands cs).findSome? fun dc =>
    match dc.2 with
    | s1 :: r1 =>
      if s1 = sep then
        (pMonthCands r1).findSome? fun mc =>
          match mc.2 with
          | s2 :: r2 =>
            if s2 = sep then
              match pYear4 r2 with
              | some (y, r3) =>
                if r3.isEmpty ∧ validDate y mc.1 dc.1 then some (y, mc.1, dc.1)
                else none
              | none => none
            else none
          | [] => none
      else none
    | [] => none

/-- strftime "%Y-%m-%d" rendering. -/
def fmtDateISO (y m d : Nat) : String :=
  String.mk (pad4 y ++ '-' :: pad2 m ++ '-' :: pad2 d)

/-- Model of re.sub(",\s*(?=\d\x7b4\x7d)", ", ", s): a comma followed by
whitespace followed by four digits becomes a comma and one space, with the
given fuel as structural bound on the consumed input. -/
def commaFixFuel : Nat → List Char → List Char
  | 0, l => l
  | _, [] => []
  | Nat.succ fuel, ',' :: rest =>
    let w := (rest.takeWhile isWs).length
    let r2 := rest.drop w
    if (r2.take 4).length = 4 ∧ (r2.take 4).all Char.isDigit then
      ',' :: ' ' :: commaFixFuel fuel r2
    else ',' :: commaFixFuel fuel rest
  | Nat.succ fuel, c :: rest => c :: commaFixFuel fuel rest

/-- Comma-spacing normalization before a four-digit year. -/
def commaFix (l : List Char) : List Char :=
  commaFixFuel l.length l

/-- Maximal digit runs of a character list (re.findall of \d+). -/
def digitRunsAux (cur : List Char) : List Char → List (List Char)
  | [] => if cur.isEmpty then [] else [cur.reverse]
  | c :: cs =>
    if c.isDigit then digitRunsAux (c :: cur) cs
    else if cur.isEmpty then digitRunsAux [] cs
    else cur.reverse :: digitRunsAux [] cs

/-- All maximal digit runs of a character list, in order. -/
def digitRuns (l : List Char) : List (List Char) :=
  digitRunsAux [] l

/-- Model of normalize_date (lines 139-160 of src/phonepe_expense_update.py
and lines 72-93 of src/phonepe_pdf2txt_parser_v2.py): non-breaking-space
replacement, strip, comma-spacing fix, the five strptime layouts in order,
then the numeric heuristic, and finally the preprocessed string itself. -/
def normalizeDate (dstr : String) : String :=
  if dstr = "" then ""
  else
    let s0 := dstr.data.map (fun c => if c = '\u00A0' then ' ' else c)
    let s := commaFix (stripWsL s0)
    match parseFmtMonthName monthAbbrevs s <|> parseFmtMonthName monthFulls s
        <|> parseFmtYmd s <|> parseFmtDmy '-' s <|> parseFmtDmy '/' s with
    | some (y, m, d) => fmtDateISO y m d
    | none =>
      match digitRuns s with
      | n1 :: n2 :: n3 :: _ =>
        let y := if n1.length = 4 then digitsToNat n1 else digitsToNat n3
        let m := digitsToNat n2
        let d := if n1.length = 4 then digitsToNat n3 else digitsToNat n1
        if validDate y m d then fmtDateISO y m d else String.mk s
      | _ => String.mk s

/-- Parse of strptime format "%I:%M %p", returning the 24-hour clock time
as strptime computes it. -/
def parseTimeIMp (cs : List Char) : Option (Nat × Nat) :=
  (pHour12Cands cs).findSome? fun hc =>
    match hc.2 with
    | ':' :: r1 =>
      (pMinCands r1).findSome? fun mc =>
        let w := (mc.2.takeWhile isWs).length
        if w = 0 then none
        else
          match startsWithCI "am".data (mc.2.drop w) with
          | some r3 =>
            if r3.isEmpty then some ((if hc.1 = 12 then 0 else hc.1), mc.1) else none
          | none =>
            match startsWithCI "pm".data (mc.2.drop w) with
            | some r3 =>
              if r3.isEmpty then some ((if hc.1 = 12 then 12 else hc.1 + 12), mc.1)
              else none
            | none => none
    | _ => none

/-- Parse of strptime format "%H:%M", full consumption. -/
def parseTimeHM (cs : List Char) : Option (Nat × Nat) :=
  (pHourCands cs).findSome? fun hc =>
    match hc.2 with
    | ':' :: r1 =>
      (pMinCands r1).findSome? fun mc =>
        if mc.2.isEmpty then some (hc.1, mc.1) else none
    | _ => none

/-- Model of normalize_time (lines 163-172 of src/phonepe_expense_update.py):
strip and uppercase, then the "%I:%M %p" and "%H:%M" layouts in order,
falling back to the uppercased input. -/
def normalizeTime (tstr : String) : String :=
  if tstr = "" then ""
  else
    let t := (stripWsL tstr.data).map Char.toUpper
    match parseTimeIMp t <|> parseTimeHM t with
    | some (h, mi) => String.mk (pad2 h ++ ':' :: pad2 mi)
    | none => String.mk t

/-- Parse of strptime format "%Y-%m-%d %H:%M", full consumption, valid
date. -/
def parseFmtYmdHM (cs : List Char) : Option (Nat × Nat × Nat × Nat × Nat) :=
  match pYear4 cs with
  | none => none
  | some (y, r) =>
    match r with
    | '-' :: r1 =>
      (pMonthCands r1).findSome? fun mc =>
        match mc.2 with
        | '-' :: r2 =>
          (pDayCands r2).findSome? fun dc =>
            let w := (dc.2.takeWhile isWs).length
            if w = 0 then none
            else
              (pHourCands (dc.2.drop w)).findSome? fun hc =>
                match hc.2 with
                | ':' :: r3 =>
                  (pMinCands r3).findSome? fun nc =>
                    if nc.2.isEmpty ∧ validDate y mc.1 dc.1 then
                      some (y, mc.1, dc.1, hc.1, nc.1)
                    else none
                | _ => none
        | _ => none
    | _ => none

/-- Combined timestamp of the record: strptime of "date time" with format
"%Y-%m-%d %H:%M" followed by strftime "%Y-%m-%d %H:%M:%S.%f" (seconds and
microseconds are zero), or failure. -/
def combineCreatedAt (dateNorm tsTime : String) : Option String :=
  match parseFmtYmdHM (dateNorm.data ++ ' ' :: tsTime.data) with
  | some (y, mo, d, h, mi) =>
    some (String.mk (pad4 y ++ '-' :: pad2 mo ++ '-' :: pad2 d ++ ' ' :: pad2 h
      ++ ':' :: pad2 mi ++ ":00.000000".data))
  | none => none

/-- Model of the created_at computation of the parsers (lines 428-436 of
src/phonepe_expense_update.py, lines 190-196 of
src/phonepe_pdf2txt_parser_v2.py): an empty normalized time defaults to
"00:00", and a failed combination silently substitutes the current
wall-clock time, which the model receives as the explicit argument now. -/
def mkCreatedAt (dateNorm timeNorm now : String) : String :=
  let ts := if timeNorm = "" then "00:00" else timeNorm
  (combineCreatedAt dateNorm ts).getD now

/-! ## Decimal amounts -/

/-- Parse of a plain decimal literal string as Python Decimal accepts it
(optional sign, integer digits, optional fraction); the result is the sign,
the digit string value and the fraction length.  Exponent notation and the
special values Infinity and NaN are not modelled; no input of this
development uses them. -/
def decParse (cs : List Char) : Option (Bool × Nat × Nat) :=
  let signed := match cs with
    | '-' :: t => (true, t)
    | '+' :: t => (false, t)
    | _ => (false, cs)
  let ip := signed.2.takeWhile Char.isDigit
  match signed.2.drop ip.length with
  | [] => if ip.length = 0 then none else some (signed.1, digitsToNat ip, 0)
  | '.' :: r3 =>
    let fp := r3.takeWhile Char.isDigit
    if r3.length ≠ fp.length then none
    else if ip.length = 0 ∧ fp.length = 0 then none
    else some (signed.1, digitsToNat (ip ++ fp), fp.length)
  | _ => none

/-- Quantization of a parsed decimal to scale 4 with ROUND_HALF_UP
(half away from zero), as Decimal.quantize(Decimal("0.0001")) computes it;
the result is the value scaled by 10^4. -/
def quant4 (neg : Bool) (mant fracLen : Nat) : Int :=
  let scaled : Nat :=
    if fracLen ≤ 4 then mant * 10 ^ (4 - fracLen)
    else
      let d := 10 ^ (fracLen - 4)
      (mant + d / 2) / d
  if neg then -(scaled : Int) else (scaled : Int)

/-- Leftmost match of the safe_decimal fallback regex [0-9]+(\.[0-9]+)?;
returns the digit value and fraction length. -/
def reNumSearch : List Char → Option (Nat × Nat)
  | [] => none
  | c :: cs =>
    if c.isDigit then
      let ip := (c :: cs).takeWhile Char.isDigit
      match (c :: cs).drop ip.length with
      | '.' :: r2 =>
        let fp := r2.takeWhile Char.isDigit
        if fp.length = 0 then some (digitsToNat ip, 0)
        else some (digitsToNat (ip ++ fp), fp.length)
      | _ => some (digitsToNat ip, 0)
    else reNumSearch cs

/-- Model of safe_decimal (lines 175-190 of src/phonepe_expense_update.py):
None or a blank string yields None; otherwise commas are removed, the string
is parsed as a Decimal and quantized to scale 4 half-up; on a parse failure
the first bare number found in the original string is used instead. -/
def safeDecimal (s : Option String) : Option Int :=
  match s with
  | none => none
  | some str =>
    if (stripWsL str.data).isEmpty then none
    else
      let ss := stripWsL (str.data.filter (· ≠ ','))
      match decParse ss with
      | some pr => some (quant4 pr.1 pr.2.1 pr.2.2)
      | none =>
        match reNumSearch str.data with
        | some nr => some (quant4 false nr.1 nr.2)
        | none => none

/-- Rounding of a parsed nonnegative decimal to two places, half to even, as
formatting float(x) with two decimals produces for the short statement
amounts (where the binary double represents the value closely enough that
decimal half-even agrees); the result is the value in hundredths. -/
def roundHalfEven2 (mant fracLen : Nat) : Nat :=
  if fracLen ≤ 2 then mant * 10 ^ (2 - fracLen)
  else
    let d := 10 ^ (fracLen - 2)
    let q := mant / d
    let r := mant % d
    if r * 2 > d then q + 1
    else if r * 2 < d then q
    else if q % 2 = 0 then q else q + 1

/-- Rendering of a value in hundredths with exactly two decimals
(Python format :.2f on a nonnegative value). -/
def fmt2dp (cents : Nat) : List Char :=
  natDigits (cents / 100) ++ '.' :: pad2 (cents % 100)

/-- Model of the amount_val computation of parse_block_text (lines 383-394
of src/phonepe_expense_update.py): an extracted amount text is formatted to
two decimals when it parses as a float (raw text is kept when it does not),
and a leading minus sign is prepended when the block was classified
Debit. -/
def amountVal (amountTxt : Option (List Char)) (isDebit : Bool) : Option String :=
  match amountTxt with
  | none => none
  | some t =>
    if t.isEmpty then none
    else
      match decParse t with
      | some pr =>
        let base := fmt2dp (roundHalfEven2 pr.2.1 pr.2.2)
        some (String.mk (if isDebit then '-' :: base else base))
      | none => some (String.mk t)

/-! ## Parsed records and the block field extractor -/

/-- Record emitted by the parsing stage; fields mirror the Python dict keys.
Optional fields model dict entries that can be None or absent (dict.get).
The paid_by and linked_mobile_number fields are produced by other parser
variants and default to absent here. -/
structure ParsedRec where
  date : String
  time : String
  created_at : String
  updated_at : String
  name : String
  transaction_id : Option String
  utr_no : Option String
  type : Option String
  amount : Option String
  paid_by : Option String := none
  linked_mobile_number : Option String := none
deriving DecidableEq, Repr

/-- Date token of a block: the first DATE_FIND_RE match among the consumed
lines, else a DATE_FIND_RE search of the (truncated) block text
(lines 396-408 of src/phonepe_expense_update.py). -/
def blockDateToken (consumedLines : List String) (bt2 : List Char) : Option (List Char) :=
  (consumedLines.findSome? fun ln => dateFindList ln.data) <|> dateFindList bt2

/-- Time token of a block: the first TIME_FIND_RE match among the consumed
lines, else a TIME_FIND_RE search of the (truncated) block text. -/
def blockTimeToken (consumedLines : List String) (bt2 : List Char) : Option (List Char) :=
  (consumedLines.findSome? fun ln => timeFindList ln.data) <|> timeFindList bt2

/-- Model of parse_block_text (lines 314-451 of
src/phonepe_expense_update.py).  The consumed source lines are passed as a
list of strings and the two datetime.now() calls of the source are modelled
by the explicit now argument. -/
def parseBlockText (blockText : String) (consumedLines : List String)
    (now : String) : Option ParsedRec :=
  let bt := blockText.data
  if (stripWsL bt).isEmpty then none
  else if dateRangeSearch blockText then none
  else if pageHeaderSearch blockText then none
  else
    let bt2 := truncateAtHeader bt
    if bt2.isEmpty then none
    else
      let paidTo := extractPayee bt2
      let txnId :=
        match txnIdSearch bt2 with
        | some t => t
        | none =>
          match genIdSearch bt2 with
          | some cand =>
            if cand.length ≥ 6 ∧ ¬(cand.all Char.isDigit) then cand else []
          | none => []
      let utr := (utrSearch bt2).getD []
      let amountTxt : Option (List Char) :=
        match inrSearchList bt2 with
        | some g => some (g.filter (· ≠ ','))
        | none =>
          match (amountFindall bt2).getLast? with
          | some a => some (a.filter (· ≠ ','))
          | none => none
      let txnType : String :=
        if searchWordCI "debit".data bt2 then "Debit"
        else if searchWordCI "credit".data bt2 then "Credit"
        else ""
      let amtVal := amountVal amountTxt (txnType = "Debit")
      match blockDateToken consumedLines bt2 with
      | none => none
      | some dtok =>
        let timeTok := (blockTimeToken consumedLines bt2).getD []
        let dateNorm := normalizeDate (String.mk (stripWsL dtok))
        let timeNorm := normalizeTime (String.mk (stripWsL timeTok))
        some {
          date := dateNorm,
          time := timeNorm,
          created_at := mkCreatedAt dateNorm timeNorm now,
          updated_at := now,
          name := if paidTo.isEmpty then "PhonePe" else String.mk paidTo,
          transaction_id := if txnId.isEmpty then none else some (String.mk txnId),
          utr_no := if utr.isEmpty then none else some (String.mk utr),
          type := if txnType = "" then none else some txnType,
          amount := amtVal }

/-! ## Store model

Rows carry the columns that the modelled queries and claims reference;
columns never read back by any modelled statement (notes, locked_attributes,
import/excluded/plaid flags, row timestamps on entries) are omitted.  Row
ids handed back by RETURNING id are drawn from a store counter.  Every
executed data statement is recorded in a trace; BEGIN/COMMIT/ROLLBACK are
transaction control and are reflected by whether a step publishes its row
appends at all (atomicity), not by trace elements. -/

/-- Account row: id and name columns plus the locked_attributes keys the
queries project (account_name, account_number); a missing key projects to
SQL NULL, modelled as none. -/
structure Account where
  id : String
  name : String
  accountName : Option String
  accountNumber : Option String
deriving DecidableEq, Repr

/-- Transactions row (columns used by the modelled statements). -/
structure TxnRow where
  id : Nat
  kind : String
  categoryId : Option String
  externalId : Option String
  createdAt : String
  updatedAt : String
deriving DecidableEq, Repr

/-- Entries row (columns used by the modelled statements). -/
structure EntryRow where
  id : Nat
  accountId : String
  entryableType : String
  entryableId : Nat
  amount : Int
  currency : String
  date : String
  name : String
  externalId : Option String
  source : Option String
deriving DecidableEq, Repr

/-- Transfers row. -/
structure TransferRow where
  outflowTransactionId : Nat
  inflowTransactionId : Nat
  status : String
deriving DecidableEq, Repr

/-- The persistent store: catalogued accounts and the three written tables,
with the id counter for RETURNING id. -/
structure Store where
  accounts : List Account
  transactions : List TxnRow
  entries : List EntryRow
  transfers : List TransferRow
  nextId : Nat
deriving DecidableEq, Repr

/-- Executed SQL data statement kinds, with the table they touch. -/
inductive Stmt where
  | select (table : String)
  | insert (table : String)
  | update (table : String)
  | delete (table : String)
deriving DecidableEq, Repr

/-- Statement is a read or an insertion of new rows. -/
def stmtReadOrInsert : Stmt → Bool
  | .select _ => true
  | .insert _ => true
  | _ => false

/-- Connection state: whether the session is in an aborted-transaction state
in which executing a statement raises InFailedSqlTransaction.  The model
surfaces this state at the duplicate-check boundary, which is where the
source handles it (txn_exists). -/
structure Conn where
  inFailedTxn : Bool
deriving DecidableEq, Repr

/-- SQL equality of a column against a driver parameter: a NULL parameter or
a NULL column never compares equal. -/
def sqlEqParam (col param : Option String) : Bool :=
  match param, col with
  | some p, some c => p = c
  | _, _ => false

/-- All suffixes of a character list, longest first. -/
def suffixes : List Char → List (List Char)
  | [] => [[]]
  | c :: cs => (c :: cs) :: suffixes cs

/-- SQL LIKE match of a pattern against a string: percent matches any run
(some suffix of the rest matches the rest of the pattern), underscore any
single character, backslash escapes the next pattern character, every other
character matches itself.  A pattern ending in a bare backslash is an error
in PostgreSQL; the model returns false, and no modelled pattern ends in a
backslash. -/
def likeMatch : List Char → List Char → Bool
  | [], s => s.isEmpty
  | p :: ps, s =>
    if p = '%' then (suffixes s).any fun t => likeMatch ps t
    else if p = '_' then
      match s with
      | [] => false
      | _ :: ss => likeMatch ps ss
    else if p = '\\' then
      match ps with
      | [] => false
      | c :: ps2 =>
        match s with
        | [] => false
        | d :: ss => if c = d then likeMatch ps2 ss else false
    else
      match s with
      | [] => false
      | d :: ss => if p = d then likeMatch ps ss else false

/-- Model of lookup_self_account_from_paid_by (lines 631-646 of
src/phonepe_expense_update.py): first account whose account_number
attribute equals the paid_by string; None when absent or when the argument
is falsy. -/
def lookupSelfAccountFromPaidBy (store : Store) (paidBy : String) :
    Option (String × String) :=
  if paidBy = "" then none
  else
    (store.accounts.find? fun a => sqlEqParam a.accountNumber (some paidBy)).map
      fun a => (a.id, a.name)

/-- Model of lookup_account_by_name (lines 682-705 of
src/phonepe_expense_update.py): the pattern is the stripped lowercased name
with no wildcards added, compared with LIKE against the lowercased
account_name attribute; LIMIT 1 returns the first matching account in
catalog order. -/
def lookupAccountByName (store : Store) (name : String) :
    Option (String × String) :=
  if name = "" then none
  else
    let pattern := (stripWsL name.data).map Char.toLower
    (store.accounts.find? fun a =>
      match a.accountName with
      | some an => likeMatch pattern (an.data.map Char.toLower)
      | none => false).map
      fun a => (a.id, a.accountName.getD "")

/-- Default self account id (the hard-coded fallback of the source; the
SURE_SELF_ACCOUNT_ID environment override is modelled as the envSelf
configuration value at each use site). -/
def DEFAULT_SELF_ACCOUNT_ID : String := "54f3d108-9ed2-446c-a489-ed1c2ffdf5b0"

/-- Entryable type filter of the category query: e.entryable_type ILIKE any
of the four spellings, i.e. case-insensitively transaction or
transactions. -/
def entryTypeIsTransaction (t : String) : Bool :=
  let l := t.data.map Char.toLower
  l = "transaction".data ∨ l = "transactions".data

/-- Category occurrences of entries satisfying a predicate, joined to their
transactions rows with a non-null category. -/
def collectCats (store : Store) (pred : EntryRow → Bool) : List String :=
  store.entries.foldr
    (fun e acc =>
      if pred e ∧ entryTypeIsTransaction e.entryableType then
        match store.transactions.find? fun t => t.id = e.entryableId with
        | some t =>
          match t.categoryId with
          | some c => c :: acc
          | none => acc
        | none => acc
      else acc)
    []

/-- Category with the highest occurrence count (GROUP BY with ORDER BY count
DESC LIMIT 1; the store leaves ties unordered, the model keeps the first
encountered). -/
def argmaxCount (l : List String) : Option String :=
  let uniq := l.foldl (fun acc c => if acc.contains c then acc else acc ++ [c]) []
  (uniq.foldl
    (fun best c =>
      let n := (l.filter (· = c)).length
      match best with
      | none => some (c, n)
      | some bn => if n > bn.2 then some (c, n) else some bn)
    none).map (·.1)

/-- Model of lookup_category_for_name_from_transactions (lines 708-772 of
src/phonepe_expense_update.py): most frequent transaction category among
entries with the exact lowercased name, else among entries whose lowercased
name contains the stripped lowercased name; the trace carries one select
for the first query and a second when the fallback runs. -/
def lookupCategoryFromTransactions (store : Store) (name : String) :
    Option String × List Stmt :=
  if name = "" then (none, [])
  else
    let lowName := name.data.map Char.toLower
    match argmaxCount (collectCats store fun e => e.name.data.map Char.toLower = lowName) with
    | some c => (some c, [Stmt.select "entries"])
    | none =>
      let pat := '%' :: (stripWsL name.data).map Char.toLower ++ ['%']
      (argmaxCount (collectCats store fun e => likeMatch pat (e.name.data.map Char.toLower)),
       [Stmt.select "entries", Stmt.select "entries"])

/-- Model of txn_exists (lines 827-854 of src/phonepe_expense_update.py):
with account id, transaction id and UTR all truthy the primary key query on
entries runs, else the looser source-or-external-id query; a connection in
the aborted-transaction state is rolled back and the record is reported as
not existing. -/
def txnExists (conn : Conn) (store : Store) (txnId utrNo accountId : Option String) :
    Bool × Conn × List Stmt :=
  if conn.inFailedTxn then
    (false, { inFailedTxn := false }, [Stmt.select "entries"])
  else if pyTruthy accountId ∧ pyTruthy txnId ∧ pyTruthy utrNo then
    (store.entries.any fun e =>
       sqlEqParam (some e.accountId) accountId && sqlEqParam e.source txnId
         && sqlEqParam e.externalId utrNo,
     conn, [Stmt.select "entries"])
  else
    (store.entries.any fun e =>
       sqlEqParam e.source txnId || sqlEqParam e.externalId utrNo,
     conn, [Stmt.select "entries"])

/-- Result of perform_transfer. -/
inductive TransferStatus where
  | created (o i : Nat)
  | found (o i : Nat)
  | skip
  | error
deriving DecidableEq, Repr

/-- Outflow and inflow amounts of a transfer: for a debit the self side
flows out with the positive amount; for a credit the sides swap and the
signs with them (lines 878-887 of src/phonepe_expense_update.py). -/
def transferAmounts (isCredit : Bool) (amt : Int) : Int × Int :=
  if isCredit then (-amt, amt) else (amt, -amt)

/-- Model of perform_transfer (lines 857-981 of
src/phonepe_expense_update.py).  The record is treated as an internal
transfer when the payee name matches a catalogued account; the engine is
idempotent over the outflow source id; the two transactions, their two
entries and the transfer row are published as one atomic step.  The error
arm of the source (a store failure inside the atomic step, rolled back)
has no failure source inside this pure model and is never produced. -/
def performTransfer (store : Store) (txn : ParsedRec) (selfId selfName : String)
    (envSelf : Option String) : TransferStatus × Store × List Stmt :=
  let name := String.mk (stripWsL txn.name.data)
  let ttype := (stripWsL (pyOrS (txn.type.getD "") "Debit").data).map Char.toLower
  match lookupAccountByName store name with
  | none => (.skip, store, [Stmt.select "accounts"])
  | some matched =>
    match safeDecimal txn.amount with
    | none => (.skip, store, [Stmt.select "accounts"])
    | some amt =>
      let isCredit := ttype = "credit".data
      let fromAcc := if isCredit then matched.1
        else pyOrS selfId (pyOrS (envSelf.getD "") DEFAULT_SELF_ACCOUNT_ID)
      let fromName := if isCredit then matched.2 else selfName
      let toAcc := if isCredit then pyOrS selfId (pyOrS (envSelf.getD "") DEFAULT_SELF_ACCOUNT_ID)
        else matched.1
      let toName := if isCredit then selfName else matched.2
      let outAmount := (transferAmounts isCredit amt).1
      let inAmount := (transferAmounts isCredit amt).2
      let sourceOut := pyOrS (txn.transaction_id.getD "") ("PHONEPE-" ++ txn.created_at)
      let sourceIn := sourceOut ++ "_IN"
      let outIds := store.entries.filterMap fun e =>
        if e.source = some sourceOut then some e.entryableId else none
      match store.transfers.find? fun tr => outIds.contains tr.outflowTransactionId with
      | some tr =>
        (.found tr.outflowTransactionId tr.inflowTransactionId, store,
         [Stmt.select "accounts", Stmt.select "transfers"])
      | none =>
        let t1 := store.nextId
        let t2 := store.nextId + 1
        let outTxn : TxnRow :=
          { id := t1, kind := "funds_movement", categoryId := none,
            externalId := some sourceOut, createdAt := txn.created_at,
            updatedAt := txn.updated_at }
        let inTxn : TxnRow :=
          { id := t2, kind := "funds_movement", categoryId := none,
            externalId := some sourceIn, createdAt := txn.created_at,
            updatedAt := txn.updated_at }
        let outEntry : EntryRow :=
          { id := store.nextId + 2, accountId := fromAcc,
            entryableType := "Transaction", entryableId := t1,
            amount := outAmount, currency := "INR", date := txn.date,
            name := "Transfer to " ++ toName, externalId := txn.utr_no,
            source := some sourceOut }
        let inEntry : EntryRow :=
          { id := store.nextId + 3, accountId := toAcc,
            entryableType := "Transaction", entryableId := t2,
            amount := inAmount, currency := "INR", date := txn.date,
            name := "Transfer from " ++ fromName, externalId := txn.utr_no,
            source := some sourceIn }
        (.created t1 t2,
         { store with
             transactions := store.transactions ++ [outTxn, inTxn],
             entries := store.entries ++ [outEntry, inEntry],
             transfers := store.transfers ++
               [{ outflowTransactionId := t1, inflowTransactionId := t2,
                  status := "confirmed" }],
             nextId := store.nextId + 4 },
         [Stmt.select "accounts", Stmt.select "transfers",
          Stmt.insert "transactions", Stmt.insert "entries",
          Stmt.insert "transactions", Stmt.insert "entries",
          Stmt.insert "transfers"])

/-! ## Posting loop of insert_transactions -/

/-- Run configuration of insert_transactions: the SURE_SELF_ACCOUNT_ID
environment value, the minimum date filter and the dry-run flag. -/
structure Cfg where
  envSelf : Option String
  minDate : Option (Nat × Nat × Nat)
  dryRun : Bool
deriving DecidableEq, Repr

/-- Configured fallback self-account id (env value when set and nonempty,
else the hard-coded default). -/
def fallbackId (cfg : Cfg) : String :=
  pyOrS (cfg.envSelf.getD "") DEFAULT_SELF_ACCOUNT_ID

/-- Model of the self-account resolution step of insert_transactions
(lines 1002-1010 of src/phonepe_expense_update.py).  When the record
carries a truthy paid_by, the result of lookup_self_account_from_paid_by is
tuple-unpacked; the function returns a bare None when the identifier
matches no account, so the unpacking raises TypeError, modelled as the
error arm carrying the statements executed so far.  Without a truthy
paid_by, or when the looked-up id is falsy, the configured fallback id with
the placeholder name SELF_ACCOUNT is used. -/
def resolveSelf (store : Store) (cfg : Cfg) (r : ParsedRec) :
    Except Unit (String × String) × List Stmt :=
  if pyTruthy r.paid_by then
    match lookupSelfAccountFromPaidBy store (r.paid_by.getD "") with
    | some sa =>
      if sa.1 = "" then (.ok (fallbackId cfg, "SELF_ACCOUNT"), [Stmt.select "accounts"])
      else (.ok (sa.1, sa.2), [Stmt.select "accounts"])
    | none => (.error (), [Stmt.select "accounts"])
  else (.ok (fallbackId cfg, "SELF_ACCOUNT"), [])

/-- Strict lexicographic order on date triples (datetime.date comparison). -/
def dateTripleLt (a b : Nat × Nat × Nat) : Bool :=
  a.1 < b.1 ∨ (a.1 = b.1 ∧ (a.2.1 < b.2.1 ∨ (a.2.1 = b.2.1 ∧ a.2.2 < b.2.2)))

/-- Outcome of one loop iteration of insert_transactions: ok continues with
the next record, halt models an exception escaping to the try of the whole
loop, which stops processing the remaining records. -/
inductive StepOut where
  | ok (conn : Conn) (store : Store) (tr : List Stmt) (ins : Nat)
  | halt (conn : Conn) (store : Store) (tr : List Stmt) (ins : Nat)
deriving DecidableEq, Repr

/-- Store component of a step outcome. -/
@[simp] def StepOut.store : StepOut → Store
  | .ok _ s _ _ => s
  | .halt _ s _ _ => s

/-- Trace component of a step outcome. -/
@[simp] def StepOut.trace : StepOut → List Stmt
  | .ok _ _ t _ => t
  | .halt _ _ t _ => t

/-- Inserted-count component of a step outcome. -/
@[simp] def StepOut.inserted : StepOut → Nat
  | .ok _ _ _ n => n
  | .halt _ _ _ n => n

/-- Model of one iteration of the record loop of insert_transactions
(lines 989-1118 of src/phonepe_expense_update.py): date validation and
minimum-date filter, self-account resolution, duplicate check, amount
parsing, the transfer attempt, and on its skip or error outcome the
fallback expense path, which inherits a category and publishes one
standard transaction and one entry with the absolute amount as a single
atomic step (the source commits both inserts together and rolls both back
on failure). -/
def processRecord (conn : Conn) (store : Store) (cfg : Cfg) (r : ParsedRec) :
    StepOut :=
  if r.date = "" then .ok conn store [] 0
  else
    match parseFmtYmd r.date.data with
    | none => .ok conn store [] 0
    | some ymd =>
      if (match cfg.minDate with
          | some md => dateTripleLt ymd md
          | none => false) then .ok conn store [] 0
      else
        match resolveSelf store cfg r with
        | (.error _, tr1) => .halt conn store tr1 0
        | (.ok slf, tr1) =>
          let selfId := slf.1
          let selfName := slf.2
          match txnExists conn store r.transaction_id r.utr_no (some selfId) with
          | (ex, conn2, tr2) =>
            if ex then .ok conn2 store (tr1 ++ tr2) 0
            else
              match safeDecimal r.amount with
              | none => .ok conn2 store (tr1 ++ tr2) 0
              | some amtDec =>
                match performTransfer store r selfId selfName cfg.envSelf with
                | (ts, store2, tr3) =>
                  match ts with
                  | .created _ _ => .ok conn2 store2 (tr1 ++ tr2 ++ tr3) 0
                  | .found _ _ => .ok conn2 store2 (tr1 ++ tr2 ++ tr3) 0
                  | _ =>
                    let rowName := pyOrS r.name "PhonePe"
                    if cfg.dryRun then .ok conn2 store2 (tr1 ++ tr2 ++ tr3) 0
                    else
                      match lookupCategoryFromTransactions store2 rowName with
                      | (cat, trCat) =>
                        let tId := store2.nextId
                        let txnRow : TxnRow :=
                          { id := tId, kind := "standard", categoryId := cat,
                            externalId := r.transaction_id,
                            createdAt := r.created_at, updatedAt := r.updated_at }
                        let entryRow : EntryRow :=
                          { id := store2.nextId + 1, accountId := selfId,
                            entryableType := "Transaction", entryableId := tId,
                            amount := |amtDec|, currency := "INR", date := r.date,
                            name := rowName, externalId := r.utr_no,
                            source := r.transaction_id }
                        .ok conn2
                          { store2 with
                              transactions := store2.transactions ++ [txnRow],
                              entries := store2.entries ++ [entryRow],
                              nextId := store2.nextId + 2 }
                          (tr1 ++ tr2 ++ tr3 ++ trCat ++
                           [Stmt.insert "transactions", Stmt.insert "entries"])
                          1

/-- Model of insert_transactions (lines 984-1133 of
src/phonepe_expense_update.py): the record loop, stopping early when an
iteration halts (the exception is caught by the try around the whole
loop). -/
def insertTransactions (conn : Conn) (store : Store) (cfg : Cfg) :
    List ParsedRec → Store × List Stmt × Nat
  | [] => (store, [], 0)
  | r :: rs =>
    match processRecord conn store cfg r with
    | .ok conn2 store2 tr n =>
      match insertTransactions conn2 store2 cfg rs with
      | (store3, tr2, n2) => (store3, tr ++ tr2, n + n2)
    | .halt _ store2 tr n => (store2, tr, n)

/-! ## Definitions following the wording of the specification

These two definitions are not translations of the source; they follow the
words of the specification and exist only to be compared against the
source-derived definitions above. -/

/-- Modelled from the spec: transfer-target resolution by case-insensitive
substring matching of the payee name against the catalogued display names,
first match in catalog order, null when no display name contains the
name. -/
def lookupAccountByNameSpec (accounts : List Account) (name : String) :
    Option String :=
  (accounts.find? fun a =>
    containsSub ((a.accountName.getD "").data.map Char.toLower)
      ((stripWsL name.data).map Char.toLower)).map (·.id)

/-- Modelled from the spec: the signed ledger amount of a standalone record
under the convention of section 4.6, negative representing funds added to
the tracked total; a credit adds funds to the self account, so its entry
amount is the negated magnitude. -/
def specConventionAmount (direction : Option String) (magnitude : Int) : Int :=
  match direction with
  | some d => if d.data.map Char.toLower = "credit".data then -magnitude else magnitude
  | none => magnitude

/-! ## Concrete fixtures used by witnesses and counterexamples -/

/-- Store with one catalogued account whose display name is "ACME Bank". -/
def wStore : Store :=
  { accounts := [{ id := "acc-to", name := "To Account",
                   accountName := some "ACME Bank", accountNumber := none }],
    transactions := [], entries := [], transfers := [], nextId := 0 }

/-- Debit record whose payee matches the catalogued account. -/
def wTxnDebit : ParsedRec :=
  { date := "2025-10-28", time := "18:39",
    created_at := "2025-10-28 18:39:00.000000", updated_at := "NOW",
    name := "ACME Bank", transaction_id := some "T12345",
    utr_no := some "U777", type := some "Debit", amount := some "250.00" }

/-- Store with no rows at all. -/
def emptyStore : Store :=
  { accounts := [], transactions := [], entries := [], transfers := [], nextId := 0 }

/-- Plain run configuration: no environment override, no minimum date, not a
dry run. -/
def cfg0 : Cfg := { envSelf := none, minDate := none, dryRun := false }

/-- Healthy connection. -/
def connOk : Conn := { inFailedTxn := false }

/-- Credit record with no matching transfer target, reaching the fallback
expense path. -/
def recCredit : ParsedRec :=
  { date := "2025-10-28", time := "",
    created_at := "2025-10-28 00:00:00.000000", updated_at := "NOW",
    name := "Some Shop", transaction_id := some "T100",
    utr_no := some "U100", type := some "Credit", amount := some "100.00" }

/-- Record carrying a paid_by identifier that matches no account. -/
def recNoMatch : ParsedRec :=
  { date := "2025-10-28", time := "",
    created_at := "2025-10-28 00:00:00.000000", updated_at := "NOW",
    name := "Shop", transaction_id := some "T9",
    utr_no := some "U9", type := some "Debit", amount := some "50.00",
    paid_by := some "999888777" }

/-- Record produced by parse_block_text on the block
"Paid to ACME Debit INR 250.00" with the anchor line "Oct 28, 2025". -/
def wRecDebitBlock : ParsedRec :=
  { date := "2025-10-28", time := "",
    created_at := "2025-10-28 00:00:00.000000", updated_at := "NOW",
    name := "ACME", transaction_id := none, utr_no := none,
    type := some "Debit", amount := some "-250.00" }

/-! ## Helper lemmas -/

/-- Outflow and inflow transfer amounts are exact negations of each other. -/
theorem transferAmounts_neg (c : Bool) (a : Int) :
    (transferAmounts c a).1 = - (transferAmounts c a).2 := by
  cases c <;> simp [transferAmounts]

/-- LIKE with a wildcard-free pattern is plain equality. -/
theorem likeMatch_plain : ∀ p s : List Char,
    (∀ c ∈ p, c ≠ '%' ∧ c ≠ '_' ∧ c ≠ '\\') →
    (likeMatch p s = true ↔ p = s)
  | [], s, _ => by
    cases s with
    | nil => simp [likeMatch]
    | cons h t => simp [likeMatch]
  | c :: cs, s, hp => by
    have hc := hp c (List.mem_cons_self c cs)
    have hcs : ∀ x ∈ cs, x ≠ '%' ∧ x ≠ '_' ∧ x ≠ '\\' :=
      fun x hx => hp x (List.mem_cons_of_mem c hx)
    cases s with
    | nil =>
      rw [likeMatch.eq_def]
      simp only [if_neg hc.1, if_neg hc.2.1, if_neg hc.2.2]
      simp
    | cons d ds =>
      rw [likeMatch.eq_def]
      simp only [if_neg hc.1, if_neg hc.2.1, if_neg hc.2.2]
      by_cases hcd : c = d
      · subst hcd
        rw [if_pos rfl, likeMatch_plain cs ds hcs]
        simp
      · simp [hcd]

/-- Pointwise equal predicates find the same first element. -/
theorem list_find?_congr {α : Type} {p q : α → Bool} (h : ∀ a, p a = q a) :
    ∀ l : List α, l.find? p = l.find? q
  | [] => rfl
  | a :: l => by
    simp only [List.find?, h a]
    cases q a
    · exact list_find?_congr h l
    · rfl

/-! ## Claim theorems -/

/-- C10: normalize_date maps "Oct 28, 2025" to "2025-10-28" and leaves
"2025-11-03" unchanged. -/
theorem normalizeDate_examples :
    normalizeDate "Oct 28, 2025" = "2025-10-28"
    ∧ normalizeDate "2025-11-03" = "2025-11-03" := by
  constructor
  · decide
  · decide

/-- C9: on the reachable date token "99-99-99" (matched by DATE_FIND_RE),
date normalization passes the token through unparsed, the date-time
combination fails, and the code substitutes the current wall-clock time as
created_at instead of surfacing the failure. -/
theorem createdAt_substitutes_wallclock :
    dateFindList "99-99-99".data = some "99-99-99".data
    ∧ normalizeDate "99-99-99" = "99-99-99"
    ∧ combineCreatedAt "99-99-99" "00:00" = none
    ∧ mkCreatedAt "99-99-99" "" "2026-01-05 09:00:00.000000"
        = "2026-01-05 09:00:00.000000" := by
  refine ⟨by decide, by decide, by decide, by decide⟩

/-- C6: when a record carries a paid_by identifier that matches no tracked
account, self-account resolution does not fall back to the default account:
the bare None returned by the lookup is tuple-unpacked, raising TypeError,
and the loop over the remaining records is aborted (here the second record,
which alone would be posted, is never processed and nothing is inserted). -/
theorem resolveSelf_unmatched_aborts :
    resolveSelf emptyStore cfg0 recNoMatch = (.error (), [Stmt.select "accounts"])
    ∧ insertTransactions connOk emptyStore cfg0 [recNoMatch, recCredit]
        = (emptyStore, [Stmt.select "accounts"], 0) := by
  refine ⟨rfl, by decide⟩

/-- C7: a connection in the aborted-transaction state is rolled back by the
duplicate check, which reports the record as not existing instead of
propagating the failure. -/
theorem txnExists_failed_conn_recovers (conn : Conn) (store : Store)
    (txnId utrNo accountId : Option String) (h : conn.inFailedTxn = true) :
    (txnExists conn store txnId utrNo accountId).1 = false
    ∧ (txnExists conn store txnId utrNo accountId).2.1.inFailedTxn = false := by
  simp [txnExists, h]

/-- Witness for C7 at a concrete failed connection, empty store and concrete
keys. -/
theorem txnExists_failed_conn_recovers_witness :
    ({ inFailedTxn := true } : Conn).inFailedTxn = true
    ∧ (txnExists { inFailedTxn := true } emptyStore (some "T1") (some "U1")
        (some "acct")).1 = false
    ∧ (txnExists { inFailedTxn := true } emptyStore (some "T1") (some "U1")
        (some "acct")).2.1.inFailedTxn = false := by
  refine ⟨rfl, ?_⟩
  exact txnExists_failed_conn_recovers { inFailedTxn := true } emptyStore
    (some "T1") (some "U1") (some "acct") rfl

/-- C2 counterexample: a run of the posting core over one debit record
whose payee matches a catalogued transfer target executes a read of the
transfers table (the idempotency query of perform_transfer, lines 894-905
of src/phonepe_expense_update.py), and transfers is none of the three
tables — accounts, entries, transactions — the claim allows the core to
read. -/
theorem insertTransactions_reads_transfers_cex :
    Stmt.select "transfers"
      ∈ (insertTransactions connOk wStore cfg0 [wTxnDebit]).2.1
    ∧ (["accounts", "entries", "transactions"] : List String).contains
        "transfers" = false := by
  refine ⟨by decide, by decide⟩

/-- C5 counterexample: with a catalog whose single display name "ACME Bank"
contains the payee name "ACME", substring resolution (the specification
wording) finds the account, but lookup_account_by_name returns null,
because its LIKE pattern carries no wildcards and so matches only display
names equal to the payee name. -/
theorem lookupAccountByName_no_substring_cex :
    containsSub ("acme bank".data) ("acme".data) = true
    ∧ lookupAccountByNameSpec wStore.accounts "ACME" = some "acc-to"
    ∧ lookupAccountByName wStore "ACME" = none := by
  refine ⟨by decide, by decide, by decide⟩

/-- C1: whenever perform_transfer reports created (for a debit or a credit
record alike), the two ledger entries it appended carry amounts that are
exact arithmetic negations of each other, at the scale-4 integer
representation. -/
theorem performTransfer_created_negation (store : Store) (txn : ParsedRec)
    (selfId selfName : String) (env : Option String) (o i : Nat)
    (h : (performTransfer store txn selfId selfName env).1 = .created o i) :
    ∃ eOut eIn : EntryRow,
      (performTransfer store txn selfId selfName env).2.1.entries
        = store.entries ++ [eOut, eIn]
      ∧ eOut.amount = - eIn.amount := by
  rcases hPT : performTransfer store txn selfId selfName env with ⟨ts, st, tr⟩
  rw [hPT] at h
  simp only at h
  subst h
  simp only [performTransfer] at hPT
  split at hPT
  · simp at hPT
  · split at hPT
    · simp at hPT
    · split at hPT
      · simp at hPT
      · rw [Prod.ext_iff, Prod.ext_iff] at hPT
        obtain ⟨-, hst, -⟩ := hPT
        subst hst
        exact ⟨_, _, rfl, transferAmounts_neg _ _⟩

/-- Witness for C1: a concrete debit record matching the catalogued account
is posted as a created transfer whose two entries negate each other. -/
theorem performTransfer_created_negation_witness :
    (performTransfer wStore wTxnDebit "self-1" "Self" none).1
      = TransferStatus.created 0 1
    ∧ ∃ eOut eIn : EntryRow,
        (performTransfer wStore wTxnDebit "self-1" "Self" none).2.1.entries
          = wStore.entries ++ [eOut, eIn]
        ∧ eOut.amount = - eIn.amount := by
  refine ⟨by decide, ?_⟩
  exact performTransfer_created_negation wStore wTxnDebit "self-1" "Self" none
    0 1 (by decide)

/-- perform_transfer issues only reads and inserts, leaves the accounts
catalog untouched, and only appends to the three written tables. -/
theorem performTransfer_frame (store : Store) (txn : ParsedRec)
    (selfId selfName : String) (env : Option String) :
    ((performTransfer store txn selfId selfName env).2.2.all stmtReadOrInsert = true)
    ∧ (performTransfer store txn selfId selfName env).2.1.accounts = store.accounts
    ∧ (∃ t, (performTransfer store txn selfId selfName env).2.1.transactions
        = store.transactions ++ t)
    ∧ (∃ t, (performTransfer store txn selfId selfName env).2.1.entries
        = store.entries ++ t)
    ∧ (∃ t, (performTransfer store txn selfId selfName env).2.1.transfers
        = store.transfers ++ t) := by
  simp only [performTransfer]
  split
  · exact ⟨rfl, rfl, ⟨[], by simp⟩, ⟨[], by simp⟩, ⟨[], by simp⟩⟩
  · split
    · exact ⟨rfl, rfl, ⟨[], by simp⟩, ⟨[], by simp⟩, ⟨[], by simp⟩⟩
    · split
      · exact ⟨rfl, rfl, ⟨[], by simp⟩, ⟨[], by simp⟩, ⟨[], by simp⟩⟩
      · exact ⟨rfl, rfl, ⟨_, rfl⟩, ⟨_, rfl⟩, ⟨_, rfl⟩⟩

/-- perform_transfer leaves the store unchanged when it reports skip or
error (the error arm of the source rolls its writes back). -/
theorem performTransfer_noop (store : Store) (txn : ParsedRec)
    (selfId selfName : String) (env : Option String)
    (h : (performTransfer store txn selfId selfName env).1 = .skip
      ∨ (performTransfer store txn selfId selfName env).1 = .error) :
    (performTransfer store txn selfId selfName env).2.1 = store := by
  rcases hPT : performTransfer store txn selfId selfName env with ⟨ts, st, tr⟩
  rw [hPT] at h
  simp only at h ⊢
  simp only [performTransfer] at hPT
  split at hPT
  · rw [Prod.ext_iff, Prod.ext_iff] at hPT
    exact hPT.2.1.symm
  · split at hPT
    · rw [Prod.ext_iff, Prod.ext_iff] at hPT
      exact hPT.2.1.symm
    · split at hPT
      · rw [Prod.ext_iff, Prod.ext_iff] at hPT
        exact hPT.2.1.symm
      · rw [Prod.ext_iff, Prod.ext_iff] at hPT
        obtain ⟨hts, -, -⟩ := hPT
        rcases h with h | h <;> exact absurd (hts.trans h) (by simp)

/-- Resolution of the self account issues at most one read of accounts, in
both its outcomes. -/
theorem resolveSelf_trace (store : Store) (cfg : Cfg) (r : ParsedRec) :
    (resolveSelf store cfg r).2.all stmtReadOrInsert = true := by
  simp only [resolveSelf]
  split
  · split
    · split <;> rfl
    · rfl
  · rfl

/-- The duplicate check issues one read of entries. -/
theorem txnExists_trace (conn : Conn) (store : Store)
    (txnId utrNo accountId : Option String) :
    (txnExists conn store txnId utrNo accountId).2.2
      = [Stmt.select "entries"] := by
  simp only [txnExists]
  split
  · rfl
  · split
    · rfl
    · rfl

/-- The category lookup issues only reads of entries. -/
theorem lookupCategory_trace (store : Store) (name : String) :
    (lookupCategoryFromTransactions store name).2.all stmtReadOrInsert = true := by
  simp only [lookupCategoryFromTransactions]
  split
  · rfl
  · split
    · rfl
    · rfl

/-- One iteration of the posting loop issues only reads and inserts,
leaves the accounts catalog untouched, and only appends to the three
written tables. -/
theorem processRecord_frame (conn : Conn) (store : Store) (cfg : Cfg)
    (r : ParsedRec) :
    ((processRecord conn store cfg r).trace.all stmtReadOrInsert = true)
    ∧ (processRecord conn store cfg r).store.accounts = store.accounts
    ∧ (∃ t, (processRecord conn store cfg r).store.transactions
        = store.transactions ++ t)
    ∧ (∃ t, (processRecord conn store cfg r).store.entries = store.entries ++ t)
    ∧ (∃ t, (processRecord conn store cfg r).store.transfers
        = store.transfers ++ t) := by
  have hframe := performTransfer_frame store r
  have hres := resolveSelf_trace store cfg r
  have hTEtr := txnExists_trace conn store r.transaction_id r.utr_no
  simp only [processRecord]
  split
  · exact ⟨rfl, rfl, ⟨[], by simp⟩, ⟨[], by simp⟩, ⟨[], by simp⟩⟩
  · split
    · exact ⟨rfl, rfl, ⟨[], by simp⟩, ⟨[], by simp⟩, ⟨[], by simp⟩⟩
    · split
      · exact ⟨rfl, rfl, ⟨[], by simp⟩, ⟨[], by simp⟩, ⟨[], by simp⟩⟩
      · split
        · rename_i tr1 hres1
          rw [hres1] at hres
          simp only at hres
          exact ⟨hres, rfl, ⟨[], by simp⟩, ⟨[], by simp⟩, ⟨[], by simp⟩⟩
        · rename_i slf tr1 hres1
          rw [hres1] at hres
          simp only at hres
          split
          · refine ⟨?_, rfl, ⟨[], by simp⟩, ⟨[], by simp⟩, ⟨[], by simp⟩⟩
            simp only [StepOut.trace, List.all_append, hres, hTEtr]
            decide
          · split
            · refine ⟨?_, rfl, ⟨[], by simp⟩, ⟨[], by simp⟩, ⟨[], by simp⟩⟩
              simp only [StepOut.trace, List.all_append, hres, hTEtr]
              decide
            · obtain ⟨htr3, hacc2, ⟨t1, ht1⟩, ⟨t2, ht2⟩, ⟨t3, ht3⟩⟩ :=
                hframe slf.1 slf.2 cfg.envSelf
              split
              · exact ⟨by simp only [StepOut.trace, List.all_append, hres,
                    hTEtr, htr3]; decide, hacc2, ⟨t1, ht1⟩, ⟨t2, ht2⟩, ⟨t3, ht3⟩⟩
              · exact ⟨by simp only [StepOut.trace, List.all_append, hres,
                    hTEtr, htr3]; decide, hacc2, ⟨t1, ht1⟩, ⟨t2, ht2⟩, ⟨t3, ht3⟩⟩
              · split
                · exact ⟨by simp only [StepOut.trace, List.all_append, hres,
                    hTEtr, htr3]; decide, hacc2, ⟨t1, ht1⟩, ⟨t2, ht2⟩, ⟨t3, ht3⟩⟩
                · have hct := lookupCategory_trace
                    (performTransfer store r slf.1 slf.2 cfg.envSelf).2.1
                    (pyOrS r.name "PhonePe")
                  simp only [StepOut.trace, StepOut.store]
                  refine ⟨?_, hacc2, ⟨_, by rw [ht1, List.append_assoc]⟩,
                    ⟨_, by rw [ht2, List.append_assoc]⟩, ⟨t3, ht3⟩⟩
                  simp only [List.all_append, hres, hTEtr, htr3, hct]
                  decide

/-- C2 (amended): a run of the v3 posting core insert_transactions executes
only reads and inserts (never UPDATE or DELETE); the accounts catalog is
unchanged and the transactions, entries and transfers tables only grow, so
every row that existed in the store before the run is unchanged after it. -/
theorem insertTransactions_inserts_only (conn : Conn) (store : Store)
    (cfg : Cfg) (recs : List ParsedRec) :
    ((insertTransactions conn store cfg recs).2.1.all stmtReadOrInsert = true)
    ∧ (insertTransactions conn store cfg recs).1.accounts = store.accounts
    ∧ (∃ t, (insertTransactions conn store cfg recs).1.transactions
        = store.transactions ++ t)
    ∧ (∃ t, (insertTransactions conn store cfg recs).1.entries
        = store.entries ++ t)
    ∧ (∃ t, (insertTransactions conn store cfg recs).1.transfers
        = store.transfers ++ t) := by
  induction recs generalizing conn store with
  | nil =>
    exact ⟨rfl, rfl, ⟨[], by simp [insertTransactions]⟩,
      ⟨[], by simp [insertTransactions]⟩, ⟨[], by simp [insertTransactions]⟩⟩
  | cons r rs ih =>
    have hstep := processRecord_frame conn store cfg r
    simp only [insertTransactions]
    split
    · rename_i conn2 store2 tr n hPR
      rw [hPR] at hstep
      simp only [StepOut.trace, StepOut.store] at hstep
      obtain ⟨htr, hacc, ⟨t1, ht1⟩, ⟨t2, ht2⟩, ⟨t3, ht3⟩⟩ := hstep
      obtain ⟨htr2, hacc2, ⟨u1, hu1⟩, ⟨u2, hu2⟩, ⟨u3, hu3⟩⟩ := ih conn2 store2
      dsimp only
      refine ⟨by simp [List.all_append, htr, htr2], hacc2.trans hacc,
        ⟨t1 ++ u1, by rw [hu1, ht1, List.append_assoc]⟩,
        ⟨t2 ++ u2, by rw [hu2, ht2, List.append_assoc]⟩,
        ⟨t3 ++ u3, by rw [hu3, ht3, List.append_assoc]⟩⟩
    · rename_i conn2 store2 tr n hPR
      rw [hPR] at hstep
      simp only [StepOut.trace, StepOut.store] at hstep
      exact hstep

/-- C3 (amended): a record that reaches the fallback expense path (the
transfer attempt reported skip or error) is posted as exactly one
Transaction of kind standard and one LedgerEntry on the resolved
self-account, as one atomic step; the entry amount is the record magnitude
taken absolutely, so it is non-negative for debit and credit records
alike. -/
theorem expense_fallback_single_standard_abs (conn : Conn) (store : Store)
    (cfg : Cfg) (r : ParsedRec) (ymd : Nat × Nat × Nat)
    (selfId selfName : String) (tr1 : List Stmt) (amtDec : Int)
    (hdate : r.date ≠ "")
    (hymd : parseFmtYmd r.date.data = some ymd)
    (hmin : (match cfg.minDate with
             | some md => dateTripleLt ymd md
             | none => false) = false)
    (hres : resolveSelf store cfg r = (.ok (selfId, selfName), tr1))
    (hdup : (txnExists conn store r.transaction_id r.utr_no (some selfId)).1
      = false)
    (hamt : safeDecimal r.amount = some amtDec)
    (htr : (performTransfer store r selfId selfName cfg.envSelf).1 = .skip
      ∨ (performTransfer store r selfId selfName cfg.envSelf).1 = .error)
    (hdry : cfg.dryRun = false) :
    ∃ conn2 trace cat,
      processRecord conn store cfg r = .ok conn2
        { store with
            transactions := store.transactions ++
              [{ id := store.nextId, kind := "standard", categoryId := cat,
                 externalId := r.transaction_id, createdAt := r.created_at,
                 updatedAt := r.updated_at }],
            entries := store.entries ++
              [{ id := store.nextId + 1, accountId := selfId,
                 entryableType := "Transaction", entryableId := store.nextId,
                 amount := |amtDec|, currency := "INR", date := r.date,
                 name := pyOrS r.name "PhonePe", externalId := r.utr_no,
                 source := r.transaction_id }],
            nextId := store.nextId + 2 }
        trace 1 := by
  have hnoop := performTransfer_noop store r selfId selfName cfg.envSelf htr
  simp only [processRecord, if_neg hdate, hymd, hmin, hres, hdup, hamt, hdry]
  rcases htr with htr | htr <;>
    simp only [htr, hnoop] <;>
    exact ⟨_, _, _, rfl⟩

/-- Witness for C3 at a concrete credit record with no transfer target: the
fallback path posts one standard transaction and one entry with the
absolute amount on the default self account. -/
theorem expense_fallback_single_standard_abs_witness :
    ∃ conn2 trace cat,
      processRecord connOk emptyStore cfg0 recCredit = .ok conn2
        { emptyStore with
            transactions := emptyStore.transactions ++
              [{ id := emptyStore.nextId, kind := "standard", categoryId := cat,
                 externalId := recCredit.transaction_id,
                 createdAt := recCredit.created_at,
                 updatedAt := recCredit.updated_at }],
            entries := emptyStore.entries ++
              [{ id := emptyStore.nextId + 1,
                 accountId := DEFAULT_SELF_ACCOUNT_ID,
                 entryableType := "Transaction",
                 entryableId := emptyStore.nextId,
                 amount := |(1000000 : Int)|, currency := "INR",
                 date := recCredit.date,
                 name := pyOrS recCredit.name "PhonePe",
                 externalId := recCredit.utr_no,
                 source := recCredit.transaction_id }],
            nextId := emptyStore.nextId + 2 }
        trace 1 :=
  expense_fallback_single_standard_abs connOk emptyStore cfg0 recCredit
    (2025, 10, 28) DEFAULT_SELF_ACCOUNT_ID "SELF_ACCOUNT" [] 1000000
    (by decide) (by decide) (by decide) rfl (by decide) (by decide)
    (Or.inl (by decide)) rfl

/-- C3 counterexample: on a credit record of magnitude 100 the fallback
expense path writes the entry amount +100.0000 (the absolute magnitude),
whereas the sign convention of the specification (negative represents funds
added to the tracked total) requires -100.0000 for a credit. -/
theorem expense_fallback_credit_sign_cex :
    ((processRecord connOk emptyStore cfg0 recCredit).store.entries.map
      (fun e => e.amount)) = [1000000]
    ∧ specConventionAmount recCredit.type 1000000 = -1000000
    ∧ (1000000 : Int) ≠ -1000000 := by
  refine ⟨by decide, by decide, by decide⟩

/-- C4 (amended): a record emitted by parse_block_text carries either no
amount, or an amount formatted at two decimals from the non-negative
extracted magnitude with a minus sign prepended exactly when the record is
classified Debit (so sign assignment for debits already happens at the
parsing stage), or, for an amount text that does not parse as a number, the
raw extracted text. -/
theorem parseBlockText_amount_shape (bt : String) (cons : List String)
    (now : String) (r : ParsedRec)
    (h : parseBlockText bt cons now = some r) :
    r.amount = none
    ∨ (∃ v, r.type = some "Debit" ∧ r.amount = some (String.mk ('-' :: fmt2dp v)))
    ∨ (∃ v, r.type ≠ some "Debit" ∧ r.amount = some (String.mk (fmt2dp v)))
    ∨ (∃ t, decParse t = none ∧ r.amount = some (String.mk t)) := by
  simp only [parseBlockText] at h
  split at h
  · simp at h
  · split at h
    · simp at h
    · split at h
      · simp at h
      · split at h
        · simp at h
        · split at h
          · simp at h
          · rw [Option.some.injEq] at h
            subst h
            simp only
            by_cases hd : searchWordCI "debit".data (truncateAtHeader bt.data) = true
            · simp only [hd, if_true]
              rcases hX : (match inrSearchList (truncateAtHeader bt.data) with
                | some g => some (g.filter (· ≠ ','))
                | none =>
                  match (amountFindall (truncateAtHeader bt.data)).getLast? with
                  | some a => some (a.filter (· ≠ ','))
                  | none => none) with _ | t
              · rw [amountVal.eq_def, hX]
                exact Or.inl rfl
              · rw [amountVal.eq_def, hX]
                by_cases he : t.isEmpty
                · simp only [he, if_true]
                  exact Or.inl trivial
                · simp only [he, Bool.false_eq_true, if_false]
                  rcases hp : decParse t with _ | pr
                  · exact Or.inr (Or.inr (Or.inr ⟨t, hp, rfl⟩))
                  · refine Or.inr (Or.inl ⟨roundHalfEven2 pr.2.1 pr.2.2, by simp, ?_⟩)
                    simp
            · simp only [hd, Bool.false_eq_true, if_false]
              have hty : ¬((if searchWordCI "credit".data (truncateAtHeader bt.data)
                  then "Credit" else "") = "Debit") := by
                split <;> decide
              rcases hX : (match inrSearchList (truncateAtHeader bt.data) with
                | some g => some (g.filter (· ≠ ','))
                | none =>
                  match (amountFindall (truncateAtHeader bt.data)).getLast? with
                  | some a => some (a.filter (· ≠ ','))
                  | none => none) with _ | t
              · rw [amountVal.eq_def, hX]
                exact Or.inl rfl
              · rw [amountVal.eq_def, hX]
                by_cases he : t.isEmpty
                · simp only [he, if_true]
                  exact Or.inl trivial
                · simp only [he, Bool.false_eq_true, if_false]
                  rcases hp : decParse t with _ | pr
                  · exact Or.inr (Or.inr (Or.inr ⟨t, hp, rfl⟩))
                  · refine Or.inr (Or.inr (Or.inl
                      ⟨roundHalfEven2 pr.2.1 pr.2.2, ?_, ?_⟩))
                    · split <;> simp
                    · simp [hty]

/-- Witness for C4 at the concrete block "Paid to ACME Debit INR 250.00"
with the anchor line "Oct 28, 2025". -/
theorem parseBlockText_amount_shape_witness :
    wRecDebitBlock.amount = none
    ∨ (∃ v, wRecDebitBlock.type = some "Debit"
        ∧ wRecDebitBlock.amount = some (String.mk ('-' :: fmt2dp v)))
    ∨ (∃ v, wRecDebitBlock.type ≠ some "Debit"
        ∧ wRecDebitBlock.amount = some (String.mk (fmt2dp v)))
    ∨ (∃ t, decParse t = none ∧ wRecDebitBlock.amount = some (String.mk t)) :=
  parseBlockText_amount_shape "Paid to ACME Debit INR 250.00"
    ["Oct 28, 2025"] "NOW" wRecDebitBlock (by decide)

/-- C4 counterexample: the block "Paid to ACME Debit INR 250.00" yields a
record whose amount string is "-250.00", which is not a non-negative
magnitude: the parsing stage has already applied the debit sign. -/
theorem parseBlockText_debit_negative_cex :
    (parseBlockText "Paid to ACME Debit INR 250.00" ["Oct 28, 2025"] "NOW").map
      (fun r => r.amount) = some (some "-250.00")
    ∧ (match decParse "-250.00".data with
       | some pr => pr.1
       | none => false) = true := by
  refine ⟨by decide, by decide⟩

/-- C5 (amended): for a nonempty payee name whose stripped lowercased form
carries no LIKE wildcard or escape character, lookup_account_by_name
returns the first account in catalog order whose display name equals the
payee name case-insensitively, and null when there is none — an exact
match, not a substring match. -/
theorem lookupAccountByName_exact_first (store : Store) (name : String)
    (h1 : name ≠ "")
    (h2 : ∀ c ∈ (stripWsL name.data).map Char.toLower,
      c ≠ '%' ∧ c ≠ '_' ∧ c ≠ '\\') :
    lookupAccountByName store name =
      (store.accounts.find? fun a =>
        a.accountName.map (fun s => s.data.map Char.toLower)
          = some ((stripWsL name.data).map Char.toLower)).map
        (fun a => (a.id, a.accountName.getD "")) := by
  unfold lookupAccountByName
  rw [if_neg h1]
  dsimp only
  congr 1
  apply list_find?_congr
  intro a
  rcases han : a.accountName with _ | an
  · simp [han]
  · simp only [han, Option.map_some]
    have hlm := likeMatch_plain ((stripWsL name.data).map Char.toLower)
      (an.data.map Char.toLower) h2
    cases hb : likeMatch ((stripWsL name.data).map Char.toLower)
        (an.data.map Char.toLower)
    · have hne : ¬(an.data.map Char.toLower
          = (stripWsL name.data).map Char.toLower) := by
        intro hcontra
        rw [hlm.mpr hcontra.symm] at hb
        exact Bool.true_eq_false.mp hb
      simp [hne]
    · have heq := hlm.mp hb
      simp [heq.symm]

/-- Witness for C5: a payee name differing from the display name only in
case resolves to the catalogued account under the exact case-insensitive
rule. -/
theorem lookupAccountByName_exact_first_witness :
    lookupAccountByName wStore "acme bank" =
      (wStore.accounts.find? fun a =>
        a.accountName.map (fun s => s.data.map Char.toLower)
          = some ((stripWsL "acme bank".data).map Char.toLower)).map
        (fun a => (a.id, a.accountName.getD "")) :=
  lookupAccountByName_exact_first wStore "acme bank" (by decide) (by decide)

/-- C8 (amended): parse_block_text discards a block (yields no record) when
the block text matches the date-range header pattern or a page-header
marker, and every emitted record required a resolvable date token; an
unresolvable payee, however, does not discard the block — the record is
emitted with the placeholder name "PhonePe". -/
theorem parseBlockText_discard_rules :
    (∀ bt cons now, dateRangeSearch bt = true
      → parseBlockText bt cons now = none)
    ∧ (∀ bt cons now, pageHeaderSearch bt = true
      → parseBlockText bt cons now = none)
    ∧ (∀ bt cons now r, parseBlockText bt cons now = some r
      → (blockDateToken cons (truncateAtHeader bt.data)).isSome = true)
    ∧ (∀ bt cons now r, parseBlockText bt cons now = some r
      → extractPayee (truncateAtHeader bt.data) = [] → r.name = "PhonePe") := by
  refine ⟨?_, ?_, ?_, ?_⟩
  · intro bt cons now h
    simp [parseBlockText, h]
  · intro bt cons now h
    simp [parseBlockText, h]
  · intro bt cons now r h
    simp only [parseBlockText] at h
    split at h
    · simp at h
    · split at h
      · simp at h
      · split at h
        · simp at h
        · split at h
          · simp at h
          · split at h
            · simp at h
            · rename_i dtok hdt
              rw [hdt]
              rfl
  · intro bt cons now r h hp
    simp only [parseBlockText] at h
    split at h
    · simp at h
    · split at h
      · simp at h
      · split at h
        · simp at h
        · split at h
          · simp at h
          · split at h
            · simp at h
            · rw [Option.some.injEq] at h
              subst h
              simp [hp]

/-- Witness for C8: a pure date-range header block yields no record. -/
theorem parseBlockText_discard_rules_witness :
    parseBlockText "Oct 28, 2025 - Nov 27, 2025" [] "NOW" = none :=
  parseBlockText_discard_rules.1 "Oct 28, 2025 - Nov 27, 2025" [] "NOW"
    (by decide)

/-- C8 counterexample: the block "INR 250.00 Debit" (anchored at the line
"Oct 28, 2025") has no resolvable payee, yet a record is emitted with the
placeholder name "PhonePe" instead of the block being discarded. -/
theorem parseBlockText_missing_payee_record_cex :
    extractPayee ("INR 250.00 Debit".data) = []
    ∧ (parseBlockText "INR 250.00 Debit" ["Oct 28, 2025"] "NOW").map
        (fun r => r.name) = some "PhonePe" := by
  refine ⟨by decide, by decide⟩

end Phonepe
